import Mathlib

/-!
Verification of the custos allocation/caching subsystem.

This file shallowly embeds the cache-related code of the custos repository:
the thread-global CPU allocation cache (src/libs/cpu/cpu_cache.rs), the
OpenCL device allocation path (src/libs/opencl/cl_device.rs), the kernel
cache consulted by KernelOptions::run (src/libs/opencl/kernel_options.rs),
graph provenance recording (src/graph/add_graph.rs), and the elementwise
add operation built on retrieve (examples/implement_operations.rs).

Machine pointers are modelled as natural numbers (0 plays the role of the
null pointer), hash maps as association lists with first-match lookup and
replace-or-append insertion, and Rust panics (a failing unwrap or assert)
as a distinguished error constructor of an Except result.
-/

namespace Custos

/-- Association-list lookup: the value stored under the first matching key. -/
def lookupA {α β : Type} [DecidableEq α] : List (α × β) → α → Option β
  | [], _ => none
  | (k, v) :: rest, a => if k = a then some v else lookupA rest a

/-- Association-list insertion with hash-map semantics: replace the value of
an existing key in place, otherwise append the new binding at the end. -/
def insertA {α β : Type} [DecidableEq α] : List (α × β) → α → β → List (α × β)
  | [], a, v => [(a, v)]
  | (k, w) :: rest, a, v =>
    if k = a then (a, v) :: rest else (k, w) :: insertA rest a v

theorem lookupA_insertA_self {α β : Type} [DecidableEq α]
    (l : List (α × β)) (a : α) (v : β) :
    lookupA (insertA l a v) a = some v := by
  induction l with
  | nil => simp [insertA, lookupA]
  | cons hd tl ih =>
    obtain ⟨k, w⟩ := hd
    by_cases hk : k = a
    · simp [insertA, hk, lookupA]
    · simp [insertA, hk, lookupA, ih]

theorem lookupA_insertA_ne {α β : Type} [DecidableEq α]
    (l : List (α × β)) (a b : α) (v : β) (h : b ≠ a) :
    lookupA (insertA l a v) b = lookupA l b := by
  induction l with
  | nil => simp [insertA, lookupA, Ne.symm h]
  | cons hd tl ih =>
    obtain ⟨k, w⟩ := hd
    by_cases hk : k = a
    · subst hk
      simp [insertA, lookupA, Ne.symm h]
    · simp [insertA, hk, lookupA, ih]

theorem length_insertA_of_none {α β : Type} [DecidableEq α]
    (l : List (α × β)) (a : α) (v : β) (h : lookupA l a = none) :
    (insertA l a v).length = l.length + 1 := by
  induction l with
  | nil => simp [insertA]
  | cons hd tl ih =>
    obtain ⟨k, w⟩ := hd
    by_cases hk : k = a
    · simp [lookupA, hk] at h
    · simp [lookupA, hk] at h
      simp [insertA, hk, ih h]

/-! ## CPU allocation cache (src/libs/cpu/cpu_cache.rs)

The Rust code keys the thread-global CPU_CACHE by a Node value holding a
sequential index and a length. The Node definition itself lives outside
the given sources; its two identity fields are taken from the doc example
in cpu_cache.rs (fields idx and len) and spec section 3. -/

/-- Identity of one allocation request: sequential index and element length
(the key type of the CPU cache's nodes map). -/
structure Node where
  idx : Nat
  len : Nat
deriving DecidableEq

/-- A CPU buffer handle as the cache sees it: raw pointer and length
(mirrors RawInfo = (CpuPtr, usize) wrapped back into a Buffer). -/
structure Buffer where
  ptr : Nat
  len : Nat
deriving DecidableEq

/-- State of the thread-global CPU cache together with the allocator
behind Buffer::new: the nodes map of CPUCache, a fresh-pointer supply,
a count of performed allocations, and the log of (device, pointer)
pairs produced by allocations (which device asked for which pointer). -/
structure CacheState where
  nodes : List (Node × Nat × Nat)
  nextPtr : Nat
  allocCount : Nat
  allocs : List (Nat × Nat)
deriving DecidableEq

/-- CPUCache::add_node: allocate a fresh buffer of node.len elements via
Buffer::new on the given device, insert (pointer, length) under the node
key, and return the buffer. Devices are identified by a number. -/
def CPUCache.add_node (device : Nat) (s : CacheState) (node : Node) :
    Buffer × CacheState :=
  let out : Buffer := ⟨s.nextPtr, node.len⟩
  (out,
    ⟨insertA s.nodes node (out.ptr, out.len),
     s.nextPtr + 1,
     s.allocCount + 1,
     s.allocs ++ [(device, out.ptr)]⟩)

/-- CPUCache::get: consult the thread-global cache for the node descriptor;
on a hit wrap the stored pointer and length as a Buffer (the state is
untouched), on a miss call add_node. The node descriptor that the Rust
code builds with Node::new(len) from the global counter is passed
explicitly here. -/
def CPUCache.get (device : Nat) (s : CacheState) (node : Node) :
    Buffer × CacheState :=
  match lookupA s.nodes node with
  | some info => (⟨info.1, info.2⟩, s)
  | none => CPUCache.add_node device s node

/-- Modelled from the spec: the Buffer drop code is not among the given
sources; spec section 4.2 states that dropping a Cached buffer is a no-op
on backend memory and removes no cache entry, so it leaves the cache and
allocator state unchanged. -/
def dropCached (_b : Buffer) (s : CacheState) : CacheState := s

/-- C1: on a cache hit (an entry already stored for the node descriptor)
CPUCache::get returns a Buffer wrapping exactly the stored pointer and
length and leaves the state untouched (no allocation); moreover, after any
retrieval, dropping the returned Cached buffer and retrieving again with
the same descriptor (from any device) yields the identical raw pointer and
performs no new allocation. -/
theorem cpu_retrieve_hit_reuses_pointer (device : Nat) (s : CacheState)
    (n : Node) :
    (∀ p l, lookupA s.nodes n = some (p, l) →
      CPUCache.get device s n = (⟨p, l⟩, s)) ∧
    (∀ device2 : Nat,
      (CPUCache.get device2
          (dropCached (CPUCache.get device s n).1 (CPUCache.get device s n).2)
          n).1.ptr
        = (CPUCache.get device s n).1.ptr ∧
      (CPUCache.get device2
          (dropCached (CPUCache.get device s n).1 (CPUCache.get device s n).2)
          n).2.allocCount
        = (CPUCache.get device s n).2.allocCount) := by
  constructor
  · intro p l h
    simp [CPUCache.get, h]
  · intro device2
    cases h : lookupA s.nodes n with
    | some info =>
      simp [CPUCache.get, h, dropCached]
    | none =>
      simp [CPUCache.get, h, dropCached, CPUCache.add_node,
        lookupA_insertA_self]

/-- Witness for C1 at a concrete cache state holding an entry for node
(idx 0, len 5) with stored pointer 7. -/
theorem cpu_retrieve_hit_reuses_pointer_witness :
    CPUCache.get 0 ⟨[(⟨0, 5⟩, (7, 5))], 10, 3, [(0, 7)]⟩ ⟨0, 5⟩
      = (⟨7, 5⟩, ⟨[(⟨0, 5⟩, (7, 5))], 10, 3, [(0, 7)]⟩) :=
  (cpu_retrieve_hit_reuses_pointer 0 ⟨[(⟨0, 5⟩, (7, 5))], 10, 3, [(0, 7)]⟩
    ⟨0, 5⟩).1 7 5 (by decide)

/-- Counterexample to C3: starting from an empty cache, a retrieval on
device 0 creates an entry for node (idx 0, len 10); the next retrieval on
the distinct device 1 with the same descriptor returns exactly the pointer
allocated by device 0 (the allocation log shows the pointer paired with
device 0) and performs no allocation of its own — the cache is shared
between the two devices, not per-device. -/
theorem cpu_cache_shared_across_devices_cex :
    (CPUCache.get 1 (CPUCache.get 0 ⟨[], 100, 0, []⟩ ⟨0, 10⟩).2 ⟨0, 10⟩).1.ptr
      = (CPUCache.get 0 ⟨[], 100, 0, []⟩ ⟨0, 10⟩).1.ptr ∧
    (0, (CPUCache.get 1 (CPUCache.get 0 ⟨[], 100, 0, []⟩ ⟨0, 10⟩).2 ⟨0, 10⟩).1.ptr)
      ∈ (CPUCache.get 0 ⟨[], 100, 0, []⟩ ⟨0, 10⟩).2.allocs ∧
    (CPUCache.get 1 (CPUCache.get 0 ⟨[], 100, 0, []⟩ ⟨0, 10⟩).2 ⟨0, 10⟩).2
      = (CPUCache.get 0 ⟨[], 100, 0, []⟩ ⟨0, 10⟩).2 := by decide

/-- C3 amended: the CPU allocation cache is thread-global state shared by
all CPU device instances and keyed by Node identity alone; after a
retrieval on one device creates an entry, a retrieval on any other device
with the same descriptor returns that very entry (identical buffer, no
state change), although the pointer was allocated on behalf of the first
device. -/
theorem cpu_cache_thread_global (d1 d2 : Nat) (s : CacheState) (n : Node)
    (h : lookupA s.nodes n = none) :
    (CPUCache.get d2 (CPUCache.get d1 s n).2 n).1 = (CPUCache.get d1 s n).1 ∧
    (CPUCache.get d2 (CPUCache.get d1 s n).2 n).2 = (CPUCache.get d1 s n).2 ∧
    (d1, (CPUCache.get d1 s n).1.ptr) ∈ (CPUCache.get d1 s n).2.allocs := by
  simp [CPUCache.get, h, CPUCache.add_node, lookupA_insertA_self]

/-- Witness for the amended C3 with devices 0 and 1 and an empty cache. -/
theorem cpu_cache_thread_global_witness :
    (CPUCache.get 1 (CPUCache.get 0 ⟨[], 100, 0, []⟩ ⟨0, 10⟩).2 ⟨0, 10⟩).1
      = (CPUCache.get 0 ⟨[], 100, 0, []⟩ ⟨0, 10⟩).1 :=
  (cpu_cache_thread_global 0 1 ⟨[], 100, 0, []⟩ ⟨0, 10⟩ (by decide)).1

/-- A sequence of retrievals: each node descriptor in turn is retrieved,
threading the cache state (models N retrieve calls within one pass). -/
def retrieveLeaves (device : Nat) : CacheState → List Node → List Buffer × CacheState
  | s, [] => ([], s)
  | s, n :: rest =>
    let r := CPUCache.get device s n
    let rr := retrieveLeaves device r.2 rest
    (r.1 :: rr.1, rr.2)

/-- Dropping a collection of Cached buffers one after the other. -/
def dropAll (bs : List Buffer) (s : CacheState) : CacheState :=
  bs.foldl (fun s b => dropCached b s) s

theorem dropAll_eq (bs : List Buffer) (s : CacheState) : dropAll bs s = s := by
  induction bs with
  | nil => rfl
  | cons b rest ih => exact ih

theorem retrieveLeaves_size (device : Nat) (ns : List Node) :
    ∀ s : CacheState, (∀ n ∈ ns, lookupA s.nodes n = none) →
    ns.Pairwise (fun m k => m.idx ≠ k.idx) →
    (retrieveLeaves device s ns).2.nodes.length = s.nodes.length + ns.length := by
  induction ns with
  | nil => intro s _ _; simp [retrieveLeaves]
  | cons n rest ih =>
    intro s habs hpw
    have hn : lookupA s.nodes n = none := habs n (List.mem_cons_self n rest)
    have hpw' := (List.pairwise_cons.mp hpw)
    have hstep :
        (CPUCache.get device s n).2.nodes
          = insertA s.nodes n (s.nextPtr, n.len) := by
      simp [CPUCache.get, hn, CPUCache.add_node]
    have habs' : ∀ m ∈ rest, lookupA (CPUCache.get device s n).2.nodes m = none := by
      intro m hm
      have hne : m ≠ n := by
        intro hmn
        exact hpw'.1 m hm (by rw [hmn])
      rw [hstep, lookupA_insertA_ne _ _ _ _ hne]
      exact habs m (List.mem_cons_of_mem n hm)
    have hlen : (CPUCache.get device s n).2.nodes.length = s.nodes.length + 1 := by
      rw [hstep]
      exact length_insertA_of_none _ _ _ hn
    have := ih (CPUCache.get device s n).2 habs' hpw'.2
    simp only [retrieveLeaves, List.length_cons]
    omega

/-- C4: starting from an empty cache, N leaf retrievals with pairwise
distinct Node indices leave exactly N entries in the cache, and dropping
any collection of returned Cached buffers changes neither the cache nor
the allocator state (no entry removed, no backend memory freed). -/
theorem cpu_cache_size_invariant (device np ac : Nat) (al : List (Nat × Nat))
    (ns : List Node) (hpw : ns.Pairwise (fun m k => m.idx ≠ k.idx)) :
    (retrieveLeaves device ⟨[], np, ac, al⟩ ns).2.nodes.length = ns.length ∧
    ∀ bs : List Buffer,
      dropAll bs (retrieveLeaves device ⟨[], np, ac, al⟩ ns).2
        = (retrieveLeaves device ⟨[], np, ac, al⟩ ns).2 := by
  constructor
  · have := retrieveLeaves_size device ns ⟨[], np, ac, al⟩
      (by intro n _; simp [lookupA]) hpw
    simpa using this
  · intro bs
    exact dropAll_eq bs _

/-- Witness for C4: two leaf retrievals with distinct indices from an
empty cache leave two entries, and dropping a buffer changes nothing. -/
theorem cpu_cache_size_invariant_witness :
    (retrieveLeaves 0 ⟨[], 0, 0, []⟩ [⟨0, 3⟩, ⟨1, 4⟩]).2.nodes.length = 2 ∧
    dropAll [⟨0, 3⟩] (retrieveLeaves 0 ⟨[], 0, 0, []⟩ [⟨0, 3⟩, ⟨1, 4⟩]).2
      = (retrieveLeaves 0 ⟨[], 0, 0, []⟩ [⟨0, 3⟩, ⟨1, 4⟩]).2 :=
  ⟨(cpu_cache_size_invariant 0 0 0 [] [⟨0, 3⟩, ⟨1, 4⟩]
      (by simp [List.pairwise_cons])).1,
   (cpu_cache_size_invariant 0 0 0 [] [⟨0, 3⟩, ⟨1, 4⟩]
      (by simp [List.pairwise_cons])).2 [⟨0, 3⟩]⟩

/-! ## OpenCL device allocation, write and read (src/libs/opencl/cl_device.rs)
and the CUDA read/write path (src/devices/cuda/ops.rs) -/

/-- Failure modes of the embedded Rust code: a panic raised by a failing
unwrap, an assert with a false condition, and a typed AllocationError
returned as a Result value. -/
inductive RustError where
  | unwrapPanic
  | assertFail
  | allocError
deriving DecidableEq

/-- Alloc::alloc for CLDevice: calls create_buffer and unwraps the result,
so a driver failure becomes a panic, not a typed error; in unified-memory
mode it also unwraps unified_ptr, otherwise the host pointer is null (0).
The function returns (host pointer, cl pointer); driver outcomes are
passed in as Option values with none modelling failure. -/
def clAlloc (createRes : Option Nat) (unified : Bool) (uniRes : Option Nat) :
    Except RustError (Nat × Nat) :=
  match createRes with
  | none => .error .unwrapPanic
  | some ptr =>
    if unified then
      match uniRes with
      | none => .error .unwrapPanic
      | some hostPtr => .ok (hostPtr, ptr)
    else .ok (0, ptr)

/-- An OpenCL buffer as the old Buffer triple stores it: host pointer
(ptr.0), cl memory object pointer (ptr.1, 0 meaning null), and length. -/
structure CLBuf where
  hostPtr : Nat
  clPtr : Nat
  len : Nat
deriving DecidableEq

/-- State of the thread-global OpenCL allocation cache: the map from Node
identity to (cl pointer, length). -/
structure CLCacheState where
  nodes : List (Node × Nat × Nat)
deriving DecidableEq

/-- Modelled from the spec: CLCache::get itself is not among the given
sources (only its caller CacheBuf::cached for CLDevice is); per spec
section 4.4 a hit wraps the stored pointer and length with no allocation
and a miss calls Alloc::alloc (the clAlloc embedding of the source
function above), inserts (pointer, length) under the node key and returns
the buffer. -/
def CLCache.get (s : CLCacheState) (n : Node) (createRes : Option Nat)
    (unified : Bool) (uniRes : Option Nat) :
    Except RustError (CLBuf × CLCacheState) :=
  match lookupA s.nodes n with
  | some info => .ok (⟨0, info.1, info.2⟩, s)
  | none =>
    match clAlloc createRes unified uniRes with
    | .error e => .error e
    | .ok (hp, p) => .ok (⟨hp, p, n.len⟩, ⟨insertA s.nodes n (p, n.len)⟩)

/-- Counterexample to C2: retrieving node (idx 0, len 4) from an empty
OpenCL cache while create_buffer fails ends in a panic raised by unwrap,
which is not the typed AllocationError result the claim demands. -/
theorem cl_alloc_failure_panics_cex :
    CLCache.get ⟨[]⟩ ⟨0, 4⟩ none false none
      = Except.error RustError.unwrapPanic ∧
    RustError.unwrapPanic ≠ RustError.allocError :=
  ⟨rfl, by decide⟩

/-- C2 amended: a cache miss whose underlying create_buffer call fails
panics through unwrap instead of propagating a typed AllocationError,
and a cache hit never fails (it succeeds even when the driver would
refuse a new allocation). -/
theorem cl_retrieve_failure_behavior (s : CLCacheState) (n : Node)
    (unified : Bool) (uniRes : Option Nat) :
    (lookupA s.nodes n = none →
      CLCache.get s n none unified uniRes = .error .unwrapPanic) ∧
    (∀ p l, lookupA s.nodes n = some (p, l) →
      ∀ createRes, CLCache.get s n createRes unified uniRes = .ok (⟨0, p, l⟩, s)) := by
  constructor
  · intro h
    cases unified <;> simp [CLCache.get, h, clAlloc]
  · intro p l h createRes
    simp [CLCache.get, h]

/-- Witness for the amended C2: a concrete failing miss panics and a
concrete hit succeeds although the driver result is a failure. -/
theorem cl_retrieve_failure_behavior_witness :
    CLCache.get ⟨[]⟩ ⟨1, 4⟩ none false none = .error .unwrapPanic ∧
    CLCache.get ⟨[(⟨1, 4⟩, (9, 4))]⟩ ⟨1, 4⟩ none false none
      = .ok (⟨0, 9, 4⟩, ⟨[(⟨1, 4⟩, (9, 4))]⟩) :=
  ⟨(cl_retrieve_failure_behavior ⟨[]⟩ ⟨1, 4⟩ false none).1 (by decide),
   (cl_retrieve_failure_behavior ⟨[(⟨1, 4⟩, (9, 4))]⟩ ⟨1, 4⟩ false none).2
     9 4 (by decide) none⟩

/-- Device memory seen through driver read/write primitives: raw pointers
mapped to the element lists stored behind them. -/
abbrev Memory := List (Nat × List Int)

/-- Data read back from pointer p for len elements: enqueue_read_buffer
and cu_read fill a vector preinitialized with T::default() (0 here) of
length len from the region behind p. -/
def readRegion (mem : Memory) (p len : Nat) : List Int :=
  let stored := (lookupA mem p).getD []
  stored.take len ++ List.replicate (len - stored.length) 0

/-- Writing data.length elements at pointer p: contents of the region
beyond the written range keep their old values. -/
def writeRegion (mem : Memory) (p : Nat) (data : List Int) : Memory :=
  let old := (lookupA mem p).getD []
  insertA mem p (data ++ old.drop data.length)

/-- WriteBuf::write for CLDevice: enqueue_write_buffer at buf.ptr.1
followed by wait_for_event. -/
def clWrite (mem : Memory) (buf : CLBuf) (data : List Int) : Memory :=
  writeRegion mem buf.clPtr data

/-- VecRead::read for CLDevice: asserts buf.ptr.1 is not null, then reads
buf.len elements into a default-initialized vector and waits. -/
def clVecRead (mem : Memory) (buf : CLBuf) : Except RustError (List Int) :=
  if buf.clPtr = 0 then .error .assertFail
  else .ok (readRegion mem buf.clPtr buf.len)

/-- A CUDA buffer: device pointer (ptrs().2, a u64 where 0 marks a non
CUDA buffer) and length. -/
structure CUBuf where
  cuPtr : Nat
  len : Nat
deriving DecidableEq

/-- WriteBuf::write for CUDA: cu_write at the device pointer. -/
def cuWrite (mem : Memory) (buf : CUBuf) (data : List Int) : Memory :=
  writeRegion mem buf.cuPtr data

/-- Read::read_to_vec for CUDA: asserts the device pointer is nonzero,
synchronizes the stream, then cu_read fills a default vector of length
buf.len. -/
def cuReadToVec (mem : Memory) (buf : CUBuf) : Except RustError (List Int) :=
  if buf.cuPtr = 0 then .error .assertFail
  else .ok (readRegion mem buf.cuPtr buf.len)

theorem readRegion_writeRegion (mem : Memory) (p : Nat) (data : List Int) :
    readRegion (writeRegion mem p data) p data.length = data := by
  unfold readRegion writeRegion
  rw [lookupA_insertA_self]
  have hz :
      data.length
        - (data ++ ((lookupA mem p).getD []).drop data.length).length = 0 := by
    simp [List.length_append]
  simp [hz, List.take_left]

/-- C5: writing a data slice whose length equals the buffer length and
immediately reading the buffer back returns exactly that data, element for
element, on the OpenCL backend (WriteBuf::write / VecRead::read) and on
the CUDA backend (WriteBuf::write / Read::read_to_vec). -/
theorem write_then_read_roundtrip (mem : Memory) (clbuf : CLBuf)
    (cubuf : CUBuf) (data : List Int)
    (h1 : data.length = clbuf.len) (h2 : clbuf.clPtr ≠ 0)
    (h3 : data.length = cubuf.len) (h4 : cubuf.cuPtr ≠ 0) :
    clVecRead (clWrite mem clbuf data) clbuf = .ok data ∧
    cuReadToVec (cuWrite mem cubuf data) cubuf = .ok data := by
  constructor
  · simp [clVecRead, clWrite, h2, ← h1, readRegion_writeRegion]
  · simp [cuReadToVec, cuWrite, h4, ← h3, readRegion_writeRegion]

/-- Witness for C5 at a concrete memory, concrete buffers of length 3 with
pointer 5, and data [1, -2, 3]. -/
theorem write_then_read_roundtrip_witness :
    clVecRead (clWrite [] ⟨0, 5, 3⟩ [1, -2, 3]) ⟨0, 5, 3⟩ = .ok [1, -2, 3] ∧
    cuReadToVec (cuWrite [] ⟨5, 3⟩ [1, -2, 3]) ⟨5, 3⟩ = .ok [1, -2, 3] :=
  write_then_read_roundtrip [] ⟨0, 5, 3⟩ ⟨5, 3⟩ [1, -2, 3]
    (by decide) (by decide) (by decide) (by decide)

/-- C7: a host read on a buffer whose backend pointer is not valid for the
device (null cl pointer, zero CUDA pointer) fails fast through the assert,
and under the precondition that the pointer is valid the assert branch is
unreachable and the read succeeds. -/
theorem host_read_contract (mem : Memory) (clbuf : CLBuf) (cubuf : CUBuf) :
    (clbuf.clPtr = 0 → clVecRead mem clbuf = .error .assertFail) ∧
    (clbuf.clPtr ≠ 0 →
      clVecRead mem clbuf = .ok (readRegion mem clbuf.clPtr clbuf.len)) ∧
    (cubuf.cuPtr = 0 → cuReadToVec mem cubuf = .error .assertFail) ∧
    (cubuf.cuPtr ≠ 0 →
      cuReadToVec mem cubuf = .ok (readRegion mem cubuf.cuPtr cubuf.len)) := by
  refine ⟨?_, ?_, ?_, ?_⟩ <;> intro h <;> simp [clVecRead, cuReadToVec, h]

/-- Witness for C7: the null-pointer buffers fail the assert, the valid
ones read back their region. -/
theorem host_read_contract_witness :
    clVecRead [] ⟨0, 0, 3⟩ = .error .assertFail ∧
    clVecRead [] ⟨0, 5, 0⟩ = .ok (readRegion [] 5 0) ∧
    cuReadToVec [] ⟨0, 3⟩ = .error .assertFail ∧
    cuReadToVec [] ⟨5, 0⟩ = .ok (readRegion [] 5 0) :=
  ⟨(host_read_contract [] ⟨0, 0, 3⟩ ⟨0, 3⟩).1 rfl,
   (host_read_contract [] ⟨0, 5, 0⟩ ⟨5, 0⟩).2.1 (by decide),
   (host_read_contract [] ⟨0, 0, 3⟩ ⟨0, 3⟩).2.2.1 rfl,
   (host_read_contract [] ⟨0, 0, 3⟩ ⟨5, 0⟩).2.2.2 (by decide)⟩

/-! ## Kernel cache consulted by KernelOptions::run
(src/libs/opencl/kernel_options.rs) -/

/-- State of a device's kernel cache: the map from (source text, entry
name) to the compiled kernel handle, a counter of driver compilations
performed, and a supply of fresh handles. -/
structure KernelCacheState where
  kernels : List ((String × String) × Nat)
  compileCount : Nat
  nextHandle : Nat
deriving DecidableEq

/-- Modelled from the spec: the kernel cache behind the arg_kernel_cache
call in KernelOptions::run is not among the given sources; per spec
section 4.5, get_or_compile returns the cached handle on a hit and on a
miss compiles through the backend driver (counted here), inserts the new
handle under (source, entry) and returns it. -/
def getOrCompile (s : KernelCacheState) (src entry : String) :
    Nat × KernelCacheState :=
  match lookupA s.kernels (src, entry) with
  | some h => (h, s)
  | none =>
    (s.nextHandle,
      ⟨insertA s.kernels (src, entry) s.nextHandle,
       s.compileCount + 1,
       s.nextHandle + 1⟩)

/-- C6: launching with a source not yet cached and then launching again
with the identical source compiles exactly once (the second launch gets
the first handle back and the compilation counter rises by one in total),
while a subsequent launch with a distinct uncached source raises the
counter to two. -/
theorem kernel_compiles_at_most_once (s : KernelCacheState)
    (src entry src2 entry2 : String)
    (h1 : lookupA s.kernels (src, entry) = none) :
    ((getOrCompile (getOrCompile s src entry).2 src entry).1
        = (getOrCompile s src entry).1 ∧
     (getOrCompile (getOrCompile s src entry).2 src entry).2.compileCount
        = s.compileCount + 1) ∧
    ((src2, entry2) ≠ (src, entry) →
      lookupA s.kernels (src2, entry2) = none →
      (getOrCompile (getOrCompile (getOrCompile s src entry).2 src entry).2
          src2 entry2).2.compileCount
        = s.compileCount + 2) := by
  refine ⟨⟨?_, ?_⟩, ?_⟩
  · simp [getOrCompile, h1, lookupA_insertA_self]
  · simp [getOrCompile, h1, lookupA_insertA_self]
  · intro hne h2
    simp [getOrCompile, h1, lookupA_insertA_self,
      lookupA_insertA_ne _ _ _ _ hne, h2]

/-- Witness for C6 at an empty kernel cache with sources "a" and "b". -/
theorem kernel_compiles_at_most_once_witness :
    (getOrCompile (getOrCompile ⟨[], 0, 0⟩ "a" "e").2 "a" "e").2.compileCount
      = 0 + 1 ∧
    (getOrCompile (getOrCompile (getOrCompile ⟨[], 0, 0⟩ "a" "e").2 "a" "e").2
        "b" "e").2.compileCount = 0 + 2 :=
  ⟨((kernel_compiles_at_most_once ⟨[], 0, 0⟩ "a" "e" "b" "e" rfl).1).2,
   (kernel_compiles_at_most_once ⟨[], 0, 0⟩ "a" "e" "b" "e" rfl).2
     (by decide) rfl⟩

/-! ## Graph provenance recording (src/graph/add_graph.rs) -/

/-- A graph node: sequential index, element length, and the recorded
parent indices (none for a leaf, otherwise the pair of producers). -/
structure GraphNode where
  idx : Nat
  len : Nat
  parents : Option (Nat × Nat)
deriving DecidableEq

/-- The dependency graph: an ordered sequence of nodes. -/
structure Graph where
  nodes : List GraphNode
deriving DecidableEq

/-- Modelled from the spec: Graph::add_leaf (the Graph type is outside the
given sources) assigns the next sequential index and records no
parents. -/
def Graph.add_leaf (g : Graph) (len : Nat) : Graph × GraphNode :=
  let n : GraphNode := ⟨g.nodes.length, len, none⟩
  (⟨g.nodes ++ [n]⟩, n)

/-- Modelled from the spec: Graph::add_node assigns the next sequential
index and records the two given parent indices. -/
def Graph.add_node (g : Graph) (len a b : Nat) : Graph × GraphNode :=
  let n : GraphNode := ⟨g.nodes.length, len, some (a, b)⟩
  (⟨g.nodes ++ [n]⟩, n)

/-- The provided default body of AddGraph::add: query idxs and pass both
components to Graph::add_node. -/
def addGraphDefaultAdd (idxs : Nat × Nat) (g : Graph) (len : Nat) :
    Graph × GraphNode :=
  g.add_node len idxs.1 idxs.2

/-- AddGraph for (): add is overridden to call Graph::add_leaf. -/
def addGraphUnit (g : Graph) (len : Nat) : Graph × GraphNode :=
  g.add_leaf len

/-- AddGraph for usize (unary operation): idxs yields the index twice and
add goes through the default implementation. -/
def addGraphUsize (i : Nat) (g : Graph) (len : Nat) : Graph × GraphNode :=
  addGraphDefaultAdd (i, i) g len

/-- AddGraph for a pair of indices: idxs yields the pair itself. -/
def addGraphIdxPair (p : Nat × Nat) (g : Graph) (len : Nat) :
    Graph × GraphNode :=
  addGraphDefaultAdd p g len

/-- Buffer identity as AddGraph sees it: the node index of buf.id(). -/
structure BufId where
  idx : Nat
deriving DecidableEq

/-- AddGraph for a single Buffer argument: both parent slots receive the
buffer's node index. -/
def addGraphBuf (b : BufId) (g : Graph) (len : Nat) : Graph × GraphNode :=
  addGraphDefaultAdd (b.idx, b.idx) g len

/-- AddGraph for a pair of Buffers: the two node indices become the two
parents. -/
def addGraphBufPair (lb rb : BufId) (g : Graph) (len : Nat) :
    Graph × GraphNode :=
  addGraphDefaultAdd (lb.idx, rb.idx) g len

/-- C8: the leaf constructor records no parents, a single parent index or
a single Buffer records both parent slots equal to that index, and a pair
of indices or a pair of Buffers records the two indices as the two
parents; every added node receives the next sequential index. -/
theorem add_graph_provenance (g : Graph) (len i : Nat) (p : Nat × Nat)
    (b lb rb : BufId) :
    (addGraphUnit g len).2.parents = none ∧
    (addGraphUsize i g len).2.parents = some (i, i) ∧
    (addGraphIdxPair p g len).2.parents = some p ∧
    (addGraphBuf b g len).2.parents = some (b.idx, b.idx) ∧
    (addGraphBufPair lb rb g len).2.parents = some (lb.idx, rb.idx) ∧
    (addGraphUnit g len).2.idx = g.nodes.length ∧
    (addGraphUsize i g len).2.idx = g.nodes.length :=
  ⟨rfl, rfl, rfl, rfl, rfl, rfl, rfl⟩

/-! ## Elementwise add built on retrieve
(examples/implement_operations.rs) -/

/-- AddBuf::add for CPU: the output length is the minimum of the two input
lengths and the loop overwrites every element of the retrieved output
buffer with lhs[i] + rhs[i]. -/
def cpuAdd (lhs rhs : List Int) : List Int :=
  (List.range (min lhs.length rhs.length)).map
    (fun i => lhs.getD i 0 + rhs.getD i 0)

/-- AddBuf::add for OpenCL: the generated kernel stores
lhs[id] + rhs[id] at every global id below the launch extent, which is the
minimum of the two input lengths. -/
def clAdd (lhs rhs : List Int) : List Int :=
  (List.range (min lhs.length rhs.length)).map
    (fun i => lhs.getD i 0 + rhs.getD i 0)

/-- C9: on the concrete inputs of the end-to-end scenario the elementwise
add yields [0, -9, -1, 6, 4, 5], on the CPU implementation and on the
OpenCL kernel semantics alike. -/
theorem add_end_to_end_scenario :
    cpuAdd [1, 3, 5, 3, 2, 6] [-1, -12, -6, 3, 2, -1]
      = [0, -9, -1, 6, 4, 5] ∧
    clAdd [1, 3, 5, 3, 2, 6] [-1, -12, -6, 3, 2, -1]
      = [0, -9, -1, 6, 4, 5] := by
  decide

/-- C10: on inputs of unequal lengths the CPU elementwise add returns a
buffer of length min(lhs.len, rhs.len) whose i-th element is
lhs[i] + rhs[i] for every i below that minimum, ignoring the trailing
elements of the longer input. -/
theorem cpu_add_unequal_lengths (lhs rhs : List Int) :
    (cpuAdd lhs rhs).length = min lhs.length rhs.length ∧
    ∀ i, i < min lhs.length rhs.length →
      (cpuAdd lhs rhs).getD i 0 = lhs.getD i 0 + rhs.getD i 0 := by
  constructor
  · simp [cpuAdd]
  · intro i hi
    simp [cpuAdd, List.getD_eq_getElem?_getD, List.getElem?_map,
      List.getElem?_range, hi]

/-- Witness for C10 at lhs of length 3 and rhs of length 2. -/
theorem cpu_add_unequal_lengths_witness :
    (cpuAdd [1, 2, 3] [10, 20]).length
      = min ([1, 2, 3] : List Int).length ([10, 20] : List Int).length ∧
    (cpuAdd [1, 2, 3] [10, 20]).getD 1 0
      = ([1, 2, 3] : List Int).getD 1 0 + ([10, 20] : List Int).getD 1 0 :=
  ⟨(cpu_add_unequal_lengths [1, 2, 3] [10, 20]).1,
   (cpu_add_unequal_lengths [1, 2, 3] [10, 20]).2 1 (by decide)⟩

end Custos
